import Mathlib

/-!
Verification of the diagnostic-parsing and publishing core of the
`vscode-mypy` language server (`bundled/tool/lsp_server.py` and
`bundled/tool/lsp_utils.py`), as a shallow embedding in Lean 4.

Modelling conventions:
* Python strings are Lean `String`/`List Char`.  The character classes of
  `re` are modelled over ASCII (`\d` is `0-9`, `\w` is ASCII alphanumeric
  plus underscore); the source only ever matches ASCII severity words and
  error codes.
* `DIAGNOSTIC_RE` is embedded as a hand-rolled matcher (`parseLine`).  The
  regex is deterministic up to two backtracking points, which are analysed
  and reproduced exactly: the four mutually exclusive alternatives for the
  optional `:char` / `:endline:endchar` location groups, and the lazy
  `(?P<message>.*?)` scan that takes the shortest message whose suffix
  has one of the four terminal shapes (two spaces + bracketed code,
  exactly two spaces, bracketed code, end of line), in that preference
  order.
* Effects (subprocess runs, LSP publish) are modelled by explicit data:
  the tool's stdout is an input string, publishes are a returned list.
-/

namespace VsMypy

/-- The apostrophe character, built by code point to keep source scanners
happy.  Used for the tool's quote-wrapping of paths. -/
def sq : Char := Char.ofNat 39

/-- One-character string holding `sq`. -/
def sqs : String := String.mk [sq]

/-- Python `int()` on a run of ASCII digits. -/
def digitsToNat (cs : List Char) : Nat :=
  cs.foldl (fun n c => 10 * n + (c.toNat - 48)) 0

/-- Python `int()` on a digit string (the regex guarantees digits). -/
def strToNatPy (s : String) : Nat := digitsToNat s.data

/-- The characters that `str.splitlines` treats as line boundaries. -/
def isLineBoundaryChar (c : Char) : Bool :=
  c = '\n' || c.toNat = 13 || c.toNat = 11 || c.toNat = 12 ||
  c.toNat = 28 || c.toNat = 29 || c.toNat = 30 || c.toNat = 133 ||
  c.toNat = 8232 || c.toNat = 8233

/-- Worker for `pySplitLines`; `acc` holds the current line reversed. -/
def pySplitLinesAux : List Char → List Char → List String
  | [], acc => if acc.isEmpty then [] else [String.mk acc.reverse]
  | [c], acc =>
    if isLineBoundaryChar c then [String.mk acc.reverse]
    else [String.mk (c :: acc).reverse]
  | c :: d :: cs, acc =>
    if c.toNat = 13 && d = '\n' then
      String.mk acc.reverse :: pySplitLinesAux cs []
    else if isLineBoundaryChar c then
      String.mk acc.reverse :: pySplitLinesAux (d :: cs) []
    else
      pySplitLinesAux (d :: cs) (c :: acc)

/-- Python `str.splitlines(keepends=False)`. -/
def pySplitLines (s : String) : List String := pySplitLinesAux s.data []

/-- `\d` of the pattern (ASCII digits). -/
def isDigitCh (c : Char) : Bool := c.isDigit

/-- `\w` of the pattern (ASCII word characters). -/
def isWordCh (c : Char) : Bool := c.isAlphanum || c = '_'

/-- `[\w-]` of the `code` group. -/
def isCodeCh (c : Char) : Bool := isWordCh c || c = '-'

/-- The named groups produced by a successful `DIAGNOSTIC_RE.match`, i.e.
the `groupdict()` read by `_parse_output_using_regex`.  Numeric groups are
kept as their matched digit strings, exactly as Python does. -/
structure GroupDict where
  location : String
  filepath : String
  line : String
  char : Option String
  end_line : Option String
  end_char : Option String
  type : String
  message : String
  code : Option String
deriving Repr, DecidableEq

/-- Matches `\[[\w-]+\]` against the WHOLE remaining input (the bracketed
code group followed directly by `$`). -/
def codeBracket : List Char → Option (List Char)
  | '[' :: rest =>
    match rest.span isCodeCh with
    | (w, r) =>
      if w.isEmpty then none
      else match r with
        | [']'] => some w
        | _ => none
  | _ => none

/-- Decides whether the suffix after a candidate message matches one of the
four terminal shapes of the pattern, in the regex engine's preference
order: `(?:  )?(?:\[code\])?$` with both groups preferring to match.
Returns `some code?` on a hit.  The four shapes are pairwise exclusive for
a fixed suffix, so the order among them is immaterial; only the preference
for a shorter message (lazy `.*?`) matters. -/
def msgSuffixHit : List Char → Option (Option (List Char))
  | [] => some none
  | ' ' :: ' ' :: rest =>
    match codeBracket rest with
    | some w => some (some w)
    | none => if rest.isEmpty then some none else none
  | suf =>
    match codeBracket suf with
    | some w => some (some w)
    | none => none

/-- The lazy message scan: grow the message one character at a time from
the left, stopping at the first suffix hit.  `.*?` cannot cross a newline,
so a newline before a hit fails the whole match. -/
def msgScanAux (acc : List Char) : List Char → Option (List Char × Option (List Char))
  | [] => some (acc.reverse, none)
  | c :: rest =>
    match msgSuffixHit (c :: rest) with
    | some w => some (acc.reverse, w)
    | none =>
      if c = '\n' then none else msgScanAux (c :: acc) rest

/-- Scan of message + optional trailing two spaces + optional code. -/
def msgScan (suf : List Char) : Option (List Char × Option (List Char)) :=
  msgScanAux [] suf

/-- A nonempty maximal digit run (`\d+` followed by a non-digit literal,
so the regex can never give digits back). -/
def digitsNE (r : List Char) : Option (List Char × List Char) :=
  match r.span isDigitCh with
  | (ds, r2) => if ds.isEmpty then none else some (ds, r2)

/-- Literal `: ` closing the location group. -/
def expectColonSpace : List Char → Option (List Char)
  | ':' :: ' ' :: rest => some rest
  | _ => none

/-- Result of the optional location groups: the `char` digits, the
`end_line`/`end_char` digits, the raw characters the groups consumed
(needed to rebuild the `location` group verbatim), and the input left
after the closing `: `. -/
structure LocTailHit where
  charDs : Option (List Char)
  endDs : Option (List Char × List Char)
  consumed : List Char
  rest : List Char
deriving Repr, DecidableEq

/-- Alternative `(?::c)(?::e1:e2)` then `: ` — both optionals taken. -/
def locAlt1 (r : List Char) : Option LocTailHit :=
  match r with
  | ':' :: r1 =>
    match digitsNE r1 with
    | some (d1, r2) =>
      match r2 with
      | ':' :: r3 =>
        match digitsNE r3 with
        | some (d2, r4) =>
          match r4 with
          | ':' :: r5 =>
            match digitsNE r5 with
            | some (d3, r6) =>
              match expectColonSpace r6 with
              | some r7 =>
                some ⟨some d1, some (d2, d3),
                  ':' :: d1 ++ ':' :: d2 ++ ':' :: d3, r7⟩
              | none => none
            | none => none
          | _ => none
        | none => none
      | _ => none
    | none => none
  | _ => none

/-- Alternative `(?::c)` then `: ` — only the char optional taken. -/
def locAlt2 (r : List Char) : Option LocTailHit :=
  match r with
  | ':' :: r1 =>
    match digitsNE r1 with
    | some (d1, r2) =>
      match expectColonSpace r2 with
      | some r3 => some ⟨some d1, none, ':' :: d1, r3⟩
      | none => none
    | none => none
  | _ => none

/-- Alternative `(?::e1:e2)` then `: ` — only the end pair taken. -/
def locAlt3 (r : List Char) : Option LocTailHit :=
  match r with
  | ':' :: r1 =>
    match digitsNE r1 with
    | some (d1, r2) =>
      match r2 with
      | ':' :: r3 =>
        match digitsNE r3 with
        | some (d2, r4) =>
          match expectColonSpace r4 with
          | some r5 => some ⟨none, some (d1, d2), ':' :: d1 ++ ':' :: d2, r5⟩
          | none => none
        | none => none
      | _ => none
    | none => none
  | _ => none

/-- Alternative with neither optional taken, just the closing `: `. -/
def locAlt4 (r : List Char) : Option LocTailHit :=
  match expectColonSpace r with
  | some r1 => some ⟨none, none, [], r1⟩
  | none => none

/-- The optional location groups in the engine's backtracking order
(char+end, char, end, neither).  Because every digit run is maximal and is
followed by a literal `:` or `: `, the four alternatives are pairwise
exclusive, so first-match equals the engine's search. -/
def locTail (r : List Char) : Option LocTailHit :=
  match locAlt1 r with
  | some h => some h
  | none =>
    match locAlt2 r with
    | some h => some h
    | none =>
      match locAlt3 r with
      | some h => some h
      | none => locAlt4 r

/-- The pieces of a full `DIAGNOSTIC_RE` match before group assembly. -/
structure ParsedCore where
  c1 : Char
  c2 : Char
  fpTail : List Char
  lineDs : List Char
  loc : LocTailHit
  tyCs : List Char
  msgCs : List Char
  codeW : Option (List Char)
deriving Repr, DecidableEq

/-- Matcher for `DIAGNOSTIC_RE` on a whole line:
`^(?P<location>(?P<filepath>..[^:]*):(?P<line>\d+)(?::(?P<char>\d+))?`
`(?::(?P<end_line>\d+):(?P<end_char>\d+))?): (?P<type>\w+): `
`(?P<message>.*?)(?:  )?(?:\[(?P<code>[\w-]+)\])?$`.
The filepath is the first two characters (any but newline) plus the
maximal run of non-colons — the only split the trailing `:` literal
allows — then the line digits, the optional groups, `: `, the severity
word, `: `, and the lazy message scan. -/
def parseCore (cs : List Char) : Option ParsedCore :=
  match cs with
  | c1 :: c2 :: rest =>
    if c1 = '\n' || c2 = '\n' then none
    else
      match rest.span (fun c => !(c = ':')) with
      | (fpTail, r1) =>
        match r1 with
        | ':' :: r2 =>
          match digitsNE r2 with
          | some (lineDs, r3) =>
            match locTail r3 with
            | some loc =>
              match loc.rest.span isWordCh with
              | (tyCs, r5) =>
                if tyCs.isEmpty then none
                else
                  match r5 with
                  | ':' :: ' ' :: r6 =>
                    match msgScan r6 with
                    | some (msgCs, codeW) =>
                      some ⟨c1, c2, fpTail, lineDs, loc, tyCs, msgCs, codeW⟩
                    | none => none
                  | _ => none
            | none => none
          | none => none
        | _ => none
  | _ => none

/-- Assembles the Python `groupdict()` from the matched pieces. -/
def toGroupDict (p : ParsedCore) : GroupDict where
  location := String.mk (p.c1 :: p.c2 :: p.fpTail ++ ':' :: p.lineDs ++ p.loc.consumed)
  filepath := String.mk (p.c1 :: p.c2 :: p.fpTail)
  line := String.mk p.lineDs
  char := p.loc.charDs.map String.mk
  end_line := p.loc.endDs.map (fun q => String.mk q.1)
  end_char := p.loc.endDs.map (fun q => String.mk q.2)
  type := String.mk p.tyCs
  message := String.mk p.msgCs
  code := p.codeW.map String.mk

/-- `_get_group_dict`: match the line against `DIAGNOSTIC_RE` and return
its group dictionary, or `None`. -/
def parseLine (l : String) : Option GroupDict :=
  (parseCore l.data).map toGroupDict

/-- `lsp.DiagnosticSeverity` of `lsprotocol.types`. -/
inductive Severity where
  | Error
  | Warning
  | Information
  | Hint
deriving Repr, DecidableEq

/-- `lsp.DiagnosticSeverity[name]`: member lookup by exact name, `none`
standing for the `KeyError` case. -/
def severityOfName (v : String) : Option Severity :=
  if v = "Error" then some .Error
  else if v = "Warning" then some .Warning
  else if v = "Information" then some .Information
  else if v = "Hint" then some .Hint
  else none

/-- Python `dict.get` over an association list (the severity setting). -/
def lookupAssoc (m : List (String × String)) (k : String) : Option String :=
  (m.find? (fun p => p.1 == k)).map (fun p => p.2)

/-- `_get_severity` of `lsp_server.py`:
`value = severity.get(code, None) or severity.get(code_type, "Error")`
followed by `lsp.DiagnosticSeverity[value]` with `KeyError` falling back
to `Information`.  Python's `or` takes its right operand whenever the
left is `None` or the empty string (falsy). -/
def getSeverity (code codeType : String) (severity : List (String × String)) : Severity :=
  let value : String :=
    match lookupAssoc severity code with
    | some s => if s = "" then (lookupAssoc severity codeType).getD "Error" else s
    | none => (lookupAssoc severity codeType).getD "Error"
  match severityOfName value with
  | some s => s
  | none => .Information

/-- An LSP position as built by the server (`lsp.Position`).  Characters
are `Int` because the server's conversion can produce `-1`. -/
structure Position where
  line : Int
  character : Int
deriving Repr, DecidableEq

/-- An LSP range; `stop` embeds the Python field `end`. -/
structure Range where
  start : Position
  stop : Position
deriving Repr, DecidableEq

/-- An LSP diagnostic as assembled by `_parse_output_using_regex`. -/
structure Diagnostic where
  range : Range
  message : String
  severity : Severity
  code : Option String
  codeHref : Option String
  source : String
deriving Repr, DecidableEq

/-- Modelled from the spec: `lsp_utils.LINE_OFFSET`, absent from the
provided `lsp_utils.py`.  §3 of the spec fixes the conversion as 1-based
to 0-based, so the offset is 1. -/
def LINE_OFFSET : Int := 1

/-- Modelled from the spec: `lsp_utils.CHAR_OFFSET`, absent from the
provided `lsp_utils.py`; as for lines, the spec's 1-based-to-0-based
conversion makes it 1. -/
def CHAR_OFFSET : Int := 1

/-- Modelled from the spec: `lsp_utils.SEE_HREF_PREFIX`, absent from the
provided `lsp_utils.py`.  §4.2 calls it a fixed "see-also" prefix marker
and §4.3 says the captured suffix is used verbatim as a full hyperlink,
so the marker is the note text `See ` followed by the scheme. -/
def seeHrefMarker : String := "See https://"

/-- Modelled from the spec: `lsp_utils.SEE_PREFIX_LEN`, absent from the
provided `lsp_utils.py`: the length of the fixed-length prefix dropped
from the note message (`See `), leaving the hyperlink itself. -/
def seePrefLen : Nat := 4

/-- Modelled from the spec: `lsp_utils.NOTE_CODE`, absent from the
provided `lsp_utils.py`; §4.3 names the synthetic code constant
`"note"`. -/
def NOTE_CODE : String := "note"

/-- `lsp_utils.ERROR_CODE_BASE_URL`. -/
def ERROR_CODE_BASE_URL : String := "https://mypy.readthedocs.io/en/stable/"

/-- `TOOL_DISPLAY` of `lsp_server.py`. -/
def TOOL_DISPLAY : String := "Mypy"

/-- Modelled from the spec: `lsp_utils.absolute_path`, absent from the
provided `lsp_utils.py`.  §4.4 groups diagnostics by the reported file
path; with the tool run under `--show-absolute-path` the reported path is
already absolute, so the grouping key is the path itself. -/
def absolutePath (p : String) : String := p

/-- Python truthiness of an optional string (`None` and `""` are falsy). -/
def truthyOpt : Option String → Bool
  | some s => !(s == "")
  | none => false

/-- Lines 336–353 of `lsp_server.py`: the range computed from a group
dictionary.  The start/end line is clamped at 0 with `max`; the character
is not clamped.  A missing column defaults to 1; a present end column
gets 1 added before the offset conversion; missing end components fall
back to the start values. -/
def rangeOf (d : GroupDict) : Range :=
  let start_line : Nat := strToNatPy d.line
  let start_char : Nat := match d.char with
    | some s => strToNatPy s
    | none => 1
  let end_line : Nat := match d.end_line with
    | some s => strToNatPy s
    | none => start_line
  let end_char : Nat := match d.end_char with
    | some s => strToNatPy s + 1
    | none => start_char
  { start := ⟨max ((start_line : Int) - LINE_OFFSET) 0, (start_char : Int) - CHAR_OFFSET⟩,
    stop := ⟨max ((end_line : Int) - LINE_OFFSET) 0, (end_char : Int) - CHAR_OFFSET⟩ }

/-- Lines 355–365 of `lsp_server.py`: the `lsp.Diagnostic` constructor
call.  `message` and `href` are the branch-dependent values computed just
above it; `seeHrefCur` is the value the `see_href` variable holds at the
construction point (it feeds the `code` fallback). -/
def mkDiag (sev : List (String × String)) (d : GroupDict) (message : String)
    (href seeHrefCur : Option String) : Diagnostic where
  range := rangeOf d
  message := message
  severity := getSeverity (d.code.getD "") d.type sev
  code :=
    if truthyOpt d.code then d.code
    else if truthyOpt seeHrefCur then some NOTE_CODE
    else none
  codeHref := if truthyOpt href then href else none
  source := TOOL_DISPLAY

/-- The loop state of `_parse_output_using_regex`: the buffered note
messages and the captured see-also hyperlink. -/
structure NoteState where
  notes : List String
  seeHref : Option String
deriving Repr, DecidableEq

/-- Python `str.startswith`: is `pre` a prefix of `s`? -/
def isPrefixL : List Char → List Char → Bool
  | [], _ => true
  | _ :: _, [] => false
  | p :: ps, c :: cs => p = c && isPrefixL ps cs

/-- Python `s.startswith(pre)` over our string model. -/
def startsWithL (s pre : String) : Bool := isPrefixL pre.data s.data

/-- Lines 301–302 of `lsp_server.py`: a line wholly wrapped in single
quotes (`line.startswith("'") and line.endswith("'")`) is unquoted
(`line[1:-1]`) before matching. -/
def stripQuotes (l : String) : String :=
  match l.data with
  | [] => l
  | c :: cs =>
    if c = sq && (c :: cs).getLast? = some sq then String.mk cs.dropLast else l

/-- The one-line lookahead (lines 319–328): the next raw line, if any,
must match the regex with type `note` at the identical location string. -/
def lookNoteAt (la : Option String) (loc : String) : Bool :=
  match la with
  | none => false
  | some nl =>
    match parseLine nl with
    | some nd => nd.type == "note" && nd.location == loc
    | none => false

/-- A line whose (raw) parse is a note. -/
def isNoteLine (x : String) : Prop :=
  ∃ d, parseLine x = some d ∧ d.type = "note"

/-- One iteration of the `for i, line in enumerate(lines)` loop of
`_parse_output_using_regex`, for the current line `l` with lookahead `la`
(the next raw line, or `none` at the end): returns the diagnostics
emitted by this iteration (none while buffering) and the next state. -/
def stepNote (sev : List (String × String)) (l : String) (la : Option String)
    (st : NoteState) : List (String × Diagnostic) × NoteState :=
  match parseLine (stripQuotes l) with
  | none => ([], st)
  | some d =>
    if d.type == "note" then
      let sh : Option String :=
        if st.seeHref.isNone && startsWithL d.message seeHrefMarker then
          some (d.message.drop seePrefLen)
        else st.seeHref
      let notes2 := st.notes ++ [d.message]
      if lookNoteAt la d.location then
        ([], ⟨notes2, sh⟩)
      else
        let msg := String.intercalate "\n" notes2
        ([(absolutePath d.filepath, mkDiag sev d msg sh sh)], ⟨[], none⟩)
    else
      let href : Option String :=
        if truthyOpt d.code then some (ERROR_CODE_BASE_URL ++ d.code.getD "") else none
      ([(absolutePath d.filepath, mkDiag sev d d.message href st.seeHref)], ⟨[], none⟩)

/-- The lookahead for the first line of `rest`, falling back to `la`
when `rest` is exhausted. -/
def headOr (rest : List String) (la : Option String) : Option String :=
  match rest with
  | [] => la
  | y :: _ => some y

/-- The whole line loop of `_parse_output_using_regex`, generalised over
the lookahead `la` seen after the last listed line (`none` at top level,
matching `i + 1 < len(lines)`).  Returns the emitted `(filepath,
diagnostic)` pairs in emission order together with the final state. -/
def runAux (sev : List (String × String)) :
    List String → Option String → NoteState → List (String × Diagnostic) × NoteState
  | [], _, st => ([], st)
  | l :: rest, la, st =>
    let s := stepNote sev l (headOr rest la) st
    let t := runAux sev rest la s.2
    (s.1 ++ t.1, t.2)

/-- The diagnostics emitted by `_parse_output_using_regex` on the given
lines, in emission order. -/
def parseEmitList (sev : List (String × String)) (lines : List String) :
    List (String × Diagnostic) :=
  (runAux sev lines none ⟨[], none⟩).1

/-- The `diagnostics[filepath]` dictionary update (lines 366–369):
append under an existing key, else insert a new key at the end
(insertion order, as for a Python dict). -/
def addDiag (m : List (String × List Diagnostic)) (fp : String) (d : Diagnostic) :
    List (String × List Diagnostic) :=
  if m.any (fun kv => kv.1 == fp) then
    m.map (fun kv => if kv.1 == fp then (kv.1, kv.2 ++ [d]) else kv)
  else m ++ [(fp, [d])]

/-- Groups an emission list into the result dictionary. -/
def groupDiags (es : List (String × Diagnostic)) : List (String × List Diagnostic) :=
  es.foldl (fun m p => addDiag m p.1 p.2) []

/-- `_parse_output_using_regex(content, severity)`: split the content
into lines, run the note-aggregating loop, and return the per-file
dictionary (an insertion-ordered association list). -/
def parseOutputRegex (content : String) (sev : List (String × String)) :
    List (String × List Diagnostic) :=
  groupDiags (parseEmitList sev (pySplitLines content))

/-- Whether a POSIX path string is absolute. -/
def isAbsPath (p : String) : Bool := startsWithL p "/"

/-- Splits a character list at `/` separators. -/
def splitOnSlash (acc : List Char) : List Char → List String
  | [] => [String.mk acc.reverse]
  | c :: cs =>
    if c = '/' then String.mk acc.reverse :: splitOnSlash [] cs
    else splitOnSlash (c :: acc) cs

/-- The parsed components of a POSIX path as `pathlib.PurePath` keeps
them: empty components (repeated or trailing slashes) and `.` components
are dropped. -/
def pathParts (p : String) : List String :=
  (splitOnSlash [] p.data).filter (fun s => !(s == "") && !(s == "."))

/-- `lsp_utils.is_same_path`: `pathlib.Path(file_path1) ==
pathlib.Path(file_path2)`.  `pathlib` equality is purely lexical — it
compares the parsed components and never consults the filesystem, so no
symlink is resolved.  Modelled for POSIX paths. -/
def is_same_path (a b : String) : Bool :=
  (isAbsPath a == isAbsPath b) && pathParts a == pathParts b

/-- A one-entry symbolic-link table: resolving any path under the link
source `src` rewrites it under the target `dst` (what
`pathlib.Path.resolve` or `os.path.realpath` would do on a filesystem
where `src` is a symlink to the directory `dst`). -/
def resolveVia (src dst p : String) : String :=
  if p = src then dst
  else if startsWithL p (src ++ "/") then dst ++ p.drop src.length
  else p

/-- `uris.from_fs_path` for POSIX paths. -/
def fileUri (p : String) : String := "file://" ++ p

/-- The `MypyInfo` dataclass: the parsed tool version and whether the
`--version` banner identified a daemon. -/
structure MypyInfo where
  major : Nat
  minor : Nat
  isDaemon : Bool
deriving Repr, DecidableEq

/-- `_is_empty_diagnostics(filepath, results)` for a non-`None` results
dictionary: no reported path may be the same path with a truthy
(non-empty) diagnostics list. -/
def isEmptyDiagnostics (filepath : String) (results : List (String × List Diagnostic)) : Bool :=
  !(results.any (fun kv => is_same_path filepath kv.1 && !kv.2.isEmpty))

/-- The inputs of one `_linting_helper` invocation.  Process effects are
made explicit: `probe` is the outcome of `get_mypy_info` (`none` when the
version probe raised, was caught and logged, and the function fell off
its `except` returning `None`); `stdout` is the text the tool run
returns; `isStdlib` and `ignoreMatch` are the environment-dependent
results of `utils.is_stdlib_file` and `utils.is_match` on the document
path. -/
structure LintInput where
  scope : String
  docPath : String
  docUri : String
  isStdlib : Bool
  ignoreMatch : Bool
  sev : List (String × String)
  probe : Option MypyInfo
  stdout : String
deriving Repr, DecidableEq

/-- What one `_linting_helper` run does: the `publish_diagnostics` calls
in order (URI and diagnostics array), the `_reported_file_paths` set
after the run (as an insertion-ordered list), and whether
`_run_tool_on_document` was reached. -/
structure LintResult where
  publishes : List (String × List Diagnostic)
  reported : List String
  toolInvoked : Bool
deriving Repr, DecidableEq

/-- Adding to the `_reported_file_paths` set. -/
def addReported (reported : List String) (fp : String) : List String :=
  if reported.contains fp then reported else reported ++ [fp]

/-- One step of the publish loop over `parse_results.items()` (lines
245–255): under file scope a same-path entry goes to the document URI;
under workspace scope every entry goes to its own file URI. -/
def routePub (inp : LintInput) (kv : String × List Diagnostic)
    (acc : List (String × List Diagnostic)) : List (String × List Diagnostic) :=
  if inp.scope == "file" && is_same_path kv.1 inp.docPath then
    (inp.docUri, kv.2) :: acc
  else if inp.scope == "workspace" then
    (fileUri kv.1, kv.2) :: acc
  else acc

/-- `_linting_helper(document)` of `lsp_server.py`, lines 204–275.
In order: the notebook-cell skip (a URI check) publishes empty and
returns; the stdlib and ignore-pattern skips do the same but only under
`reportingScope == "file"`; then `get_mypy_info(settings).version` is
read — when the probe failed this raises `AttributeError` on `None`,
the orchestrator-boundary `except` logs it and nothing is published and
the tool is never run; otherwise the tool runs, and non-empty stdout is
parsed and routed per scope (file: same-path entries to the document URI
plus an empty clear when none were non-empty; workspace: every entry to
its own file URI, recorded in `_reported_file_paths`, then every
recorded file absent from the parse gets an empty publish), while empty
stdout just clears the document.  `lintMain` is the non-empty-stdout
body (lines 240–267); `lintingHelper` below wires it behind the skip,
probe and empty-stdout checks. -/
def lintMain (inp : LintInput) (reported : List String) : LintResult :=
  let results := parseOutputRegex inp.stdout inp.sev
  let loopPubs : List (String × List Diagnostic) :=
    results.foldr (routePub inp) []
  let reported2 : List String :=
    if inp.scope == "workspace" then
      results.foldl (fun acc kv => addReported acc kv.1) reported
    else reported
  let clearPubs : List (String × List Diagnostic) :=
    if inp.scope == "file" then
      if isEmptyDiagnostics inp.docPath results then [(inp.docUri, [])] else []
    else if inp.scope == "workspace" then
      (reported2.filter (fun fp => !(results.any (fun kv => kv.1 == fp)))).map
        (fun fp => (fileUri fp, []))
    else []
  ⟨loopPubs ++ clearPubs, reported2, true⟩

def lintingHelper (inp : LintInput) (reported : List String) : LintResult :=
  if startsWithL inp.docUri "vscode-notebook-cell" then
    ⟨[(inp.docUri, [])], reported, false⟩
  else if inp.scope == "file" && inp.isStdlib then
    ⟨[(inp.docUri, [])], reported, false⟩
  else if inp.scope == "file" && inp.ignoreMatch then
    ⟨[(inp.docUri, [])], reported, false⟩
  else
    match inp.probe with
    | none => ⟨[], reported, false⟩
    | some _info =>
      if inp.stdout == "" then ⟨[(inp.docUri, [])], reported, true⟩
      else lintMain inp reported

/-- The severity-resolution contract in the words of the claim: take the
severity named by `severity[code]` when the key is present, else by
`severity[type]` when present, else `Error`; a resolved string that is
not a recognised severity name yields `Information`.  (Spec-side
definition, for comparison with `getSeverity`.) -/
def severitySpecClaim (code codeType : String) (m : List (String × String)) : Severity :=
  let resolved : String :=
    match lookupAssoc m code with
    | some v => v
    | none =>
      match lookupAssoc m codeType with
      | some w => w
      | none => "Error"
  match severityOfName resolved with
  | some s => s
  | none => .Information

/-- The amended severity-resolution contract: `severity[code]` counts
only when present with a non-empty value (Python truthiness); otherwise
`severity[type]` when present; otherwise `Error`; unrecognised resolved
strings yield `Information`.  (Spec-side definition, for comparison with
`getSeverity`.) -/
def severitySpecAmended (code codeType : String) (m : List (String × String)) : Severity :=
  let fromCode : Option String :=
    match lookupAssoc m code with
    | some v => if v = "" then none else some v
    | none => none
  let resolved : String :=
    match fromCode with
    | some v => v
    | none =>
      match lookupAssoc m codeType with
      | some w => w
      | none => "Error"
  (severityOfName resolved).getD .Information

/-- C2: the claim says a trailing `[code]` marker followed by 0, 1, 2 or
3 whitespace characters parses identically, code extracted and no marker
or whitespace in the message — and the repository's own unit tests
(`test_diagnostic_regex.py`, which states its pattern is a duplicate of
the server's) assert exactly that.  The server's `DIAGNOSTIC_RE`
however anchors the optional bracket group directly at `$` with no
trailing-whitespace tolerance, so with one or two trailing spaces the
code group is lost and the marker (with 1 trailing space: plus the
space) is swallowed into the message.  This theorem evaluates the
embedded server regex at those inputs. -/
theorem c2_trailing_space_divergence :
    (parseLine "/path/to/x.py:14:16:19:5: error: msg  [type-var]").map
        (fun d => (d.message, d.code)) = some ("msg", some "type-var")
    ∧ (parseLine "/path/to/x.py:14:16:19:5: error: msg  [type-var] ").map
        (fun d => (d.message, d.code)) = some ("msg  [type-var] ", none)
    ∧ (parseLine "/path/to/x.py:14:16:19:5: error: msg  [type-var]  ").map
        (fun d => (d.message, d.code)) = some ("msg  [type-var]", none) := by
  refine ⟨?_, ?_, ?_⟩ <;> decide

/-- C3 counterexample: the claim says the emitted start character is
`max(reportedChar - 1, 0)`, hence never negative, including for a
reported column of 0.  On the line `/a.py:1:0: error: m` the server
computes `0 - CHAR_OFFSET = -1` — only the line is clamped with `max`,
the character is not. -/
theorem c3_column_zero_counterexample :
    (parseOutputRegex "/a.py:1:0: error: m" [("error", "Error")]).map
        (fun kv => (kv.1, kv.2.map (fun d => d.range.start.character)))
      = [("/a.py", [(-1 : Int)])]
    ∧ ((-1 : Int) = max ((0 : Int) - 1) 0) = False := by
  refine ⟨?_, ?_⟩ <;> decide

/-- C5 counterexample: the claim says a present `severity[code]` entry
wins, and an unrecognised resolved string yields `Information`.  With
`severity = ("x" ↦ "", "error" ↦ "Error")` the key `"x"` is present with
the (unrecognised) value `""`, so the claim demands `Information`; the
code's Python `or` treats the empty string as absent and falls through
to `severity["error"] = "Error"`.  `severitySpecClaim` is the claim's
wording as a definition. -/
theorem c5_empty_value_counterexample :
    getSeverity "x" "error" [("x", ""), ("error", "Error")] = Severity.Error
    ∧ severitySpecClaim "x" "error" [("x", ""), ("error", "Error")] = Severity.Information
    ∧ Severity.Error ≠ Severity.Information := by
  refine ⟨?_, ?_, ?_⟩ <;> decide

/-- C5 amended: severity resolution as the code implements it — the
`severity[code]` entry wins only when present with a non-empty value,
otherwise `severity[type]` when present, otherwise `Error`, and an
unrecognised resolved string yields `Information`.  `getSeverity` (the
embedding of `_get_severity`) coincides with this amended contract on
all inputs. -/
theorem c5_severity_resolution_amended :
    ∀ (code codeType : String) (m : List (String × String)),
      getSeverity code codeType m = severitySpecAmended code codeType m := by
  intro code codeType m
  unfold getSeverity severitySpecAmended
  cases h1 : lookupAssoc m code with
  | none =>
    cases h2 : lookupAssoc m codeType with
    | none => cases hS : severityOfName "Error" <;> simp [h1, h2, hS, Option.getD]
    | some w => cases hS : severityOfName w <;> simp [h1, h2, hS, Option.getD]
  | some v =>
    by_cases hv : v = ""
    · subst hv
      cases h2 : lookupAssoc m codeType with
      | none => cases hS : severityOfName "Error" <;> simp [h1, h2, hS, Option.getD]
      | some w => cases hS : severityOfName w <;> simp [h1, h2, hS, Option.getD]
    · cases hS : severityOfName v <;> simp [h1, hv, hS, Option.getD]

/-- C8: when the version probe fails, `get_mypy_info` catches and logs
the error but returns `None`; `_linting_helper` then raises
`AttributeError` on `None.version`, which the orchestrator boundary
catches — the tool is never invoked and nothing is published, instead of
the claimed "proceed without version-gated flags".  Evaluated at the
failing input: a file-scope run whose probe failed (`probe = none`) with
would-be diagnostics on stdout. -/
theorem c8_probe_failure_aborts :
    lintingHelper
        ⟨"file", "/ws/a.py", "file:///ws/a.py", false, false,
          [("error", "Error")], none, "/ws/a.py:1:1: error: boom  [misc]"⟩
        ["/ws/old.py"]
      = ⟨[], ["/ws/old.py"], false⟩ := by
  decide

/-- C6 counterexample: the claim says every file-scope lint run
triggered by didOpen/didSave publishes at least one diagnostics array to
the triggering document's URI.  When the version probe fails (and no
skip condition applies), the run aborts at `get_mypy_info(...).version`
and publishes nothing at all. -/
theorem c6_probe_failure_counterexample :
    (lintingHelper
        ⟨"file", "/ws/b.py", "file:///ws/b.py", false, false,
          [("error", "Error")], none, ""⟩
        []).publishes = [] := by
  decide

/-- C9 counterexample: the claim says a standard-library document is
never linted, regardless of reporting scope.  Under
`reportingScope = "workspace"` the stdlib check (line 218) is gated on
`reportingScope == "file"`, so the tool IS invoked and no empty
diagnostics are published for the document. -/
theorem c9_workspace_stdlib_counterexample :
    lintingHelper
        ⟨"workspace", "/usr/lib/python3.11/os.py", "file:///usr/lib/python3.11/os.py",
          true, false, [("error", "Error")], some ⟨1, 8, false⟩, "banner text"⟩
        []
      = ⟨[], [], true⟩ := by
  decide

/-- C10: the repository's own test `test_is_same_path_with_symlink`
documents that `is_same_path` must identify a path through a symlinked
directory with its resolved real-path twin.  `is_same_path` compares
`pathlib.Path` values, a purely lexical comparison that never resolves
symlinks, so it returns `False` on the test's pair (here `resolveVia`
models the filesystem fact that `/tmp/symlink_dir` links to
`/tmp/real_dir`, making the two paths denote the same file). -/
theorem c10_symlink_same_file_not_equal :
    resolveVia "/tmp/symlink_dir" "/tmp/real_dir" "/tmp/symlink_dir/test_file.py"
        = "/tmp/real_dir/test_file.py"
    ∧ is_same_path "/tmp/symlink_dir/test_file.py" "/tmp/real_dir/test_file.py" = false
    ∧ is_same_path "/tmp/real_dir/test_file.py" "/tmp/real_dir/test_file.py" = true := by
  refine ⟨?_, ?_, ?_⟩ <;> decide

lemma runAux_nil (sev : List (String × String)) (la : Option String) (st : NoteState) :
    runAux sev [] la st = ([], st) := rfl

lemma runAux_cons (sev : List (String × String)) (l : String) (rest : List String)
    (la : Option String) (st : NoteState) :
    runAux sev (l :: rest) la st =
      ((stepNote sev l (headOr rest la) st).1
          ++ (runAux sev rest la (stepNote sev l (headOr rest la) st).2).1,
        (runAux sev rest la (stepNote sev l (headOr rest la) st).2).2) := rfl

/-- Whatever `stepNote` emits was built by `mkDiag` from the group
dictionary of the current line, so its range is `rangeOf` that
dictionary. -/
lemma stepNote_emit {sev : List (String × String)} {l : String} {la : Option String}
    {st : NoteState} {fp : String} {dg : Diagnostic}
    (h : (fp, dg) ∈ (stepNote sev l la st).1) :
    ∃ d, parseLine (stripQuotes l) = some d ∧ dg.range = rangeOf d := by
  unfold stepNote at h
  cases hpl : parseLine (stripQuotes l) with
  | none => rw [hpl] at h; simp at h
  | some d =>
    rw [hpl] at h
    refine ⟨d, rfl, ?_⟩
    by_cases hn : (d.type == "note") = true
    · simp only [hn, if_true] at h
      by_cases hla : lookNoteAt la d.location = true
      · simp [hla] at h
      · simp only [Bool.not_eq_true] at hla
        simp [hla] at h
        rw [h.2]
        rfl
    · simp only [Bool.not_eq_true] at hn
      simp [hn] at h
      rw [h.2]
      rfl

/-- Every emitted diagnostic comes from some line of the input whose
stripped form matched the regex; its range is computed by `rangeOf` from
that match. -/
lemma runAux_emit {sev : List (String × String)} :
    ∀ (lines : List String) (la : Option String) (st : NoteState)
      (fp : String) (dg : Diagnostic),
      (fp, dg) ∈ (runAux sev lines la st).1 →
      ∃ l d, l ∈ lines ∧ parseLine (stripQuotes l) = some d ∧ dg.range = rangeOf d := by
  intro lines
  induction lines with
  | nil => intro la st fp dg h; simp [runAux_nil] at h
  | cons l rest ih =>
    intro la st fp dg h
    rw [runAux_cons] at h
    rcases List.mem_append.mp h with h1 | h2
    · obtain ⟨d, hpl, hr⟩ := stepNote_emit h1
      exact ⟨l, d, List.mem_cons_self l rest, hpl, hr⟩
    · obtain ⟨l2, d, hl2, hpl, hr⟩ := ih _ _ _ _ h2
      exact ⟨l2, d, List.mem_cons_of_mem l hl2, hpl, hr⟩

/-- Membership transfer through one dictionary update. -/
lemma addDiag_mem {acc : List (String × List Diagnostic)} {k : String} {v : Diagnostic}
    {fp : String} {ds0 : List Diagnostic} {dg : Diagnostic}
    (h : (fp, ds0) ∈ addDiag acc k v) (hdg : dg ∈ ds0) :
    (∃ ds1, (fp, ds1) ∈ acc ∧ dg ∈ ds1) ∨ (fp = k ∧ dg = v) := by
  unfold addDiag at h
  by_cases hany : acc.any (fun kv => kv.1 == k) = true
  · simp only [hany, if_true] at h
    obtain ⟨kv, hkv, hf⟩ := List.mem_map.mp h
    by_cases hk : (kv.1 == k) = true
    · simp only [hk, if_true] at hf
      have hfp : kv.1 = fp := congrArg Prod.fst hf
      have hds : kv.2 ++ [v] = ds0 := congrArg Prod.snd hf
      rw [← hds] at hdg
      rcases List.mem_append.mp hdg with hin | hin
      · exact Or.inl ⟨kv.2, by rw [← hfp]; exact hkv, hin⟩
      · have hdgv : dg = v := by simpa using hin
        exact Or.inr ⟨by rw [← hfp]; exact eq_of_beq hk, hdgv⟩
    · simp only [hk, if_false] at hf
      exact Or.inl ⟨ds0, hf ▸ hkv, hdg⟩
  · simp only [hany, if_false] at h
    rcases List.mem_append.mp h with hin | hin
    · exact Or.inl ⟨ds0, hin, hdg⟩
    · have h1 : fp = k ∧ ds0 = [v] := by simpa using hin
      refine Or.inr ⟨h1.1, ?_⟩
      have := h1.2 ▸ hdg
      simpa using this

/-- Membership transfer through the dictionary fold. -/
lemma foldl_addDiag_mem :
    ∀ (es : List (String × Diagnostic)) (acc : List (String × List Diagnostic))
      (fp : String) (ds : List Diagnostic) (dg : Diagnostic),
      (fp, ds) ∈ es.foldl (fun m p => addDiag m p.1 p.2) acc → dg ∈ ds →
      (∃ ds1, (fp, ds1) ∈ acc ∧ dg ∈ ds1) ∨ (fp, dg) ∈ es := by
  intro es
  induction es with
  | nil => intro acc fp ds dg h hdg; exact Or.inl ⟨ds, h, hdg⟩
  | cons e es ih =>
    intro acc fp ds dg h hdg
    rcases ih (addDiag acc e.1 e.2) fp ds dg h hdg with h1 | h2
    · obtain ⟨ds1, hmem, hdg1⟩ := h1
      rcases addDiag_mem hmem hdg1 with h3 | h4
      · exact Or.inl h3
      · right
        have : (fp, dg) = e := by
          rw [h4.1, h4.2]
        rw [this]
        exact List.mem_cons_self e es
    · exact Or.inr (List.mem_cons_of_mem e h2)

/-- A diagnostic found in the grouped result dictionary occurs in the
emission list. -/
lemma groupDiags_mem {es : List (String × Diagnostic)} {fp : String}
    {ds : List Diagnostic} {dg : Diagnostic}
    (h : (fp, ds) ∈ groupDiags es) (hdg : dg ∈ ds) : (fp, dg) ∈ es := by
  rcases foldl_addDiag_mem es [] fp ds dg h hdg with h1 | h2
  · obtain ⟨ds1, hmem, _⟩ := h1
    simp at hmem
  · exact h2

/-- The regex binds `end_line` and `end_char` together: in any match
both are present or both absent. -/
lemma parseLine_end_tie {l : String} {d : GroupDict} (h : parseLine l = some d) :
    d.end_line = none ↔ d.end_char = none := by
  unfold parseLine at h
  rw [Option.map_eq_some'] at h
  obtain ⟨p, _, hd⟩ := h
  subst hd
  cases hE : p.loc.endDs <;> simp [toGroupDict, hE]

/-- C3 amended: for every diagnostic produced by
`_parse_output_using_regex`, the start position is computed from the
matched groups as `line = max(reportedLine - 1, 0)` and
`character = reportedChar - 1` with NO clamping — the character may be
`-1` when the tool reports column 0 — and `character = 0` exactly when
the column is absent (it then defaults to 1 before the offset). -/
theorem c3_start_position_amended (content : String) (sev : List (String × String))
    (fp : String) (ds : List Diagnostic) (dg : Diagnostic)
    (hds : (fp, ds) ∈ parseOutputRegex content sev) (hdg : dg ∈ ds) :
    ∃ l d, l ∈ pySplitLines content ∧ parseLine (stripQuotes l) = some d ∧
      dg.range.start.line = max ((strToNatPy d.line : Int) - 1) 0 ∧
      dg.range.start.character =
        (match d.char with
          | some s => (strToNatPy s : Int)
          | none => 1) - 1 := by
  obtain ⟨l, d, hl, hpl, hr⟩ :=
    runAux_emit (pySplitLines content) none ⟨[], none⟩ fp dg (groupDiags_mem hds hdg)
  refine ⟨l, d, hl, hpl, ?_, ?_⟩
  · rw [hr]; simp [rangeOf, LINE_OFFSET]
  · rw [hr]; cases hc : d.char <;> simp [rangeOf, CHAR_OFFSET, hc]

/-- Witness for the C3 amended theorem at a concrete run: the line
`/a.py:1:0: error: m` yields a diagnostic whose start character is
`0 - 1 = -1` while its start line is `max(1 - 1, 0) = 0`. -/
theorem c3_start_position_amended_witness :
    ∃ l d, l ∈ pySplitLines "/a.py:1:0: error: m" ∧ parseLine (stripQuotes l) = some d ∧
      (Diagnostic.range (mkDiag [("error", "Error")]
          (toGroupDict ⟨'/', 'a', ['.', 'p', 'y'], ['1'],
            ⟨some ['0'], none, [':', '0'], ['e', 'r', 'r', 'o', 'r', ':', ' ', 'm']⟩,
            ['e', 'r', 'r', 'o', 'r'], ['m'], none⟩)
          "m" none none)).start.line = max ((strToNatPy d.line : Int) - 1) 0 ∧
      (Diagnostic.range (mkDiag [("error", "Error")]
          (toGroupDict ⟨'/', 'a', ['.', 'p', 'y'], ['1'],
            ⟨some ['0'], none, [':', '0'], ['e', 'r', 'r', 'o', 'r', ':', ' ', 'm']⟩,
            ['e', 'r', 'r', 'o', 'r'], ['m'], none⟩)
          "m" none none)).start.character =
        (match d.char with
          | some s => (strToNatPy s : Int)
          | none => 1) - 1 := by
  have h1 : ("/a.py",
      [mkDiag [("error", "Error")]
        (toGroupDict ⟨'/', 'a', ['.', 'p', 'y'], ['1'],
          ⟨some ['0'], none, [':', '0'], ['e', 'r', 'r', 'o', 'r', ':', ' ', 'm']⟩,
          ['e', 'r', 'r', 'o', 'r'], ['m'], none⟩)
        "m" none none]) ∈ parseOutputRegex "/a.py:1:0: error: m" [("error", "Error")] := by
    decide
  have h2 := c3_start_position_amended "/a.py:1:0: error: m" [("error", "Error")]
    "/a.py" _ _ h1 (List.mem_singleton.mpr rfl)
  exact h2

/-- C4: for every diagnostic produced by `_parse_output_using_regex`,
when the matched line carries an explicit end column `s` the emitted end
character is `int(s) + 1 - CHAR_OFFSET = int(s)`, i.e. the reported end
column plus one converted to 0-based (one past the last character); when
the line has no explicit end, the end position equals the start position
(zero-width range), since both end components default to the start
values before the offset conversion. -/
theorem c4_end_position (content : String) (sev : List (String × String))
    (fp : String) (ds : List Diagnostic) (dg : Diagnostic)
    (hds : (fp, ds) ∈ parseOutputRegex content sev) (hdg : dg ∈ ds) :
    ∃ l d, l ∈ pySplitLines content ∧ parseLine (stripQuotes l) = some d ∧
      (∀ s, d.end_char = some s → dg.range.stop.character = (strToNatPy s : Int)) ∧
      (d.end_char = none → dg.range.stop = dg.range.start) := by
  obtain ⟨l, d, hl, hpl, hr⟩ :=
    runAux_emit (pySplitLines content) none ⟨[], none⟩ fp dg (groupDiags_mem hds hdg)
  refine ⟨l, d, hl, hpl, ?_, ?_⟩
  · intro s hs
    rw [hr]
    simp only [rangeOf, hs, CHAR_OFFSET]
    push_cast
    ring
  · intro hnone
    have hline : d.end_line = none := (parseLine_end_tie hpl).mpr hnone
    rw [hr]
    simp [rangeOf, hnone, hline]

/-- Witness for C4 at a concrete run containing both shapes: the line
`/p.py:14:16:19:5: error: e  [type-var]` (explicit end column 5) and the
line `/p.py:10: error: nocol` (no end at all). -/
theorem c4_end_position_witness :
    (∃ l d, l ∈ pySplitLines "/p.py:14:16:19:5: error: e  [type-var]\n/p.py:10: error: nocol"
      ∧ parseLine (stripQuotes l) = some d
      ∧ (∀ s, d.end_char = some s →
          (Diagnostic.range (mkDiag [("error", "Error")]
            (toGroupDict ⟨'/', 'p', ['.', 'p', 'y'], ['1', '4'],
              ⟨some ['1', '6'], some (['1', '9'], ['5']),
                [':', '1', '6', ':', '1', '9', ':', '5'],
                ['e', 'r', 'r', 'o', 'r', ':', ' ', 'e', ' ', ' ', '[', 't', 'y',
                  'p', 'e', '-', 'v', 'a', 'r', ']']⟩,
              ['e', 'r', 'r', 'o', 'r'], ['e'],
              some ['t', 'y', 'p', 'e', '-', 'v', 'a', 'r']⟩)
            "e" (some "https://mypy.readthedocs.io/en/stable/type-var") none)).stop.character
            = (strToNatPy s : Int))
      ∧ (d.end_char = none →
          (Diagnostic.range (mkDiag [("error", "Error")]
            (toGroupDict ⟨'/', 'p', ['.', 'p', 'y'], ['1', '4'],
              ⟨some ['1', '6'], some (['1', '9'], ['5']),
                [':', '1', '6', ':', '1', '9', ':', '5'],
                ['e', 'r', 'r', 'o', 'r', ':', ' ', 'e', ' ', ' ', '[', 't', 'y',
                  'p', 'e', '-', 'v', 'a', 'r', ']']⟩,
              ['e', 'r', 'r', 'o', 'r'], ['e'],
              some ['t', 'y', 'p', 'e', '-', 'v', 'a', 'r']⟩)
            "e" (some "https://mypy.readthedocs.io/en/stable/type-var") none)).stop
            = (Diagnostic.range (mkDiag [("error", "Error")]
              (toGroupDict ⟨'/', 'p', ['.', 'p', 'y'], ['1', '4'],
                ⟨some ['1', '6'], some (['1', '9'], ['5']),
                  [':', '1', '6', ':', '1', '9', ':', '5'],
                  ['e', 'r', 'r', 'o', 'r', ':', ' ', 'e', ' ', ' ', '[', 't', 'y',
                    'p', 'e', '-', 'v', 'a', 'r', ']']⟩,
                ['e', 'r', 'r', 'o', 'r'], ['e'],
                some ['t', 'y', 'p', 'e', '-', 'v', 'a', 'r']⟩)
              "e" (some "https://mypy.readthedocs.io/en/stable/type-var") none)).start)) := by
  have h1 : ("/p.py",
      [mkDiag [("error", "Error")]
        (toGroupDict ⟨'/', 'p', ['.', 'p', 'y'], ['1', '4'],
          ⟨some ['1', '6'], some (['1', '9'], ['5']),
            [':', '1', '6', ':', '1', '9', ':', '5'],
            ['e', 'r', 'r', 'o', 'r', ':', ' ', 'e', ' ', ' ', '[', 't', 'y',
              'p', 'e', '-', 'v', 'a', 'r', ']']⟩,
          ['e', 'r', 'r', 'o', 'r'], ['e'],
          some ['t', 'y', 'p', 'e', '-', 'v', 'a', 'r']⟩)
        "e" (some "https://mypy.readthedocs.io/en/stable/type-var") none,
       mkDiag [("error", "Error")]
        (toGroupDict ⟨'/', 'p', ['.', 'p', 'y'], ['1', '0'],
          ⟨none, none, [], ['e', 'r', 'r', 'o', 'r', ':', ' ', 'n', 'o', 'c', 'o', 'l']⟩,
          ['e', 'r', 'r', 'o', 'r'], ['n', 'o', 'c', 'o', 'l'], none⟩)
        "nocol" none none]) ∈
      parseOutputRegex "/p.py:14:16:19:5: error: e  [type-var]\n/p.py:10: error: nocol"
        [("error", "Error")] := by
    decide
  exact c4_end_position
    "/p.py:14:16:19:5: error: e  [type-var]\n/p.py:10: error: nocol"
    [("error", "Error")] "/p.py" _ _ h1 (by simp)

/-- Lexical path comparison is symmetric. -/
lemma is_same_path_symm (a b : String) : is_same_path a b = is_same_path b a := by
  unfold is_same_path
  by_cases h1 : isAbsPath a = isAbsPath b
  · by_cases h2 : pathParts a = pathParts b
    · rw [h1, h2]
    · have e1 : (pathParts a == pathParts b) = false := beq_eq_false_iff_ne.mpr h2
      have e2 : (pathParts b == pathParts a) = false :=
        beq_eq_false_iff_ne.mpr (fun h => h2 h.symm)
      rw [e1, e2, Bool.and_false, Bool.and_false]
  · have e1 : (isAbsPath a == isAbsPath b) = false := beq_eq_false_iff_ne.mpr h1
    have e2 : (isAbsPath b == isAbsPath a) = false :=
      beq_eq_false_iff_ne.mpr (fun h => h1 h.symm)
    rw [e1, e2, Bool.false_and, Bool.false_and]

/-- The publish loop only prepends, so membership is preserved. -/
lemma mem_routePub {inp : LintInput} {kv : String × List Diagnostic}
    {acc : List (String × List Diagnostic)} {y : String × List Diagnostic}
    (h : y ∈ acc) : y ∈ routePub inp kv acc := by
  unfold routePub
  split
  · exact List.mem_cons_of_mem _ h
  · split
    · exact List.mem_cons_of_mem _ h
    · exact h

/-- Under file scope, a same-path entry of the parse result is published
to the document URI by the loop. -/
lemma mem_foldr_routePub_file {inp : LintInput}
    {results : List (String × List Diagnostic)} {kv : String × List Diagnostic}
    (hkv : kv ∈ results) (hsc : inp.scope = "file")
    (hsp : is_same_path kv.1 inp.docPath = true) :
    (inp.docUri, kv.2) ∈ results.foldr (routePub inp) [] := by
  induction results with
  | nil => simp at hkv
  | cons r rs ih =>
    rcases List.mem_cons.mp hkv with h | h
    · subst h
      unfold routePub
      simp [hsc, hsp]
    · exact mem_routePub (ih h)

/-- Under workspace scope, every entry of the parse result is published
to its own file URI by the loop. -/
lemma mem_foldr_routePub_ws {inp : LintInput}
    {results : List (String × List Diagnostic)} {kv : String × List Diagnostic}
    (hkv : kv ∈ results) (hsc : inp.scope = "workspace") :
    (fileUri kv.1, kv.2) ∈ results.foldr (routePub inp) [] := by
  induction results with
  | nil => simp at hkv
  | cons r rs ih =>
    rcases List.mem_cons.mp hkv with h | h
    · subst h
      unfold routePub
      simp [hsc]
    · exact mem_routePub (ih h)

/-- `addReported` never removes entries. -/
lemma mem_addReported {acc : List String} {fp x : String} (h : x ∈ acc) :
    x ∈ addReported acc fp := by
  unfold addReported
  split
  · exact h
  · exact List.mem_append_left _ h

/-- `addReported` contains the added path. -/
lemma mem_addReported_self (acc : List String) (fp : String) :
    fp ∈ addReported acc fp := by
  unfold addReported
  split
  · next h => exact List.elem_iff.mp h
  · exact List.mem_append_right _ (List.mem_singleton.mpr rfl)

/-- The reported-set fold never removes entries. -/
lemma mem_foldl_addReported {results : List (String × List Diagnostic)} :
    ∀ {acc : List String} {x : String}, x ∈ acc →
      x ∈ results.foldl (fun a kv => addReported a kv.1) acc := by
  induction results with
  | nil => intro acc x h; exact h
  | cons r rs ih => intro acc x h; exact ih (mem_addReported h)

/-- Every parse-result key ends up in the reported-set fold. -/
lemma mem_foldl_addReported_key {results : List (String × List Diagnostic)}
    {kv : String × List Diagnostic} (hkv : kv ∈ results) :
    ∀ (acc : List String), kv.1 ∈ results.foldl (fun a kv => addReported a kv.1) acc := by
  induction results with
  | nil => simp at hkv
  | cons r rs ih =>
    intro acc
    rcases List.mem_cons.mp hkv with h | h
    · subst h
      rw [List.foldl_cons]
      exact mem_foldl_addReported (mem_addReported_self acc kv.1)
    · rw [List.foldl_cons]
      exact ih h _

/-- C6 amended: under file scope, every lint run that does not abort on
a failed version probe publishes at least one diagnostics array to the
triggering document's URI — the skip paths publish an empty array, an
empty stdout publishes an empty array, a parse with a same-path entry
publishes it in the loop, and a parse without one triggers the explicit
empty-array clear.  (The amendment excludes the probe-failure abort,
where nothing is published; see the counterexample.) -/
theorem c6_file_scope_always_publishes (inp : LintInput) (reported : List String)
    (hscope : inp.scope = "file")
    (hok : startsWithL inp.docUri "vscode-notebook-cell" = true ∨ inp.isStdlib = true
      ∨ inp.ignoreMatch = true ∨ inp.probe.isSome = true) :
    ∃ ds, (inp.docUri, ds) ∈ (lintingHelper inp reported).publishes := by
  by_cases hnb : startsWithL inp.docUri "vscode-notebook-cell" = true
  · refine ⟨[], ?_⟩
    simp [lintingHelper, hnb]
  by_cases hsl : inp.isStdlib = true
  · refine ⟨[], ?_⟩
    simp [lintingHelper, hnb, hscope, hsl]
  by_cases hig : inp.ignoreMatch = true
  · refine ⟨[], ?_⟩
    simp [lintingHelper, hnb, hscope, hsl, hig]
  cases hp : inp.probe with
  | none =>
    rcases hok with h | h | h | h
    · exact absurd h hnb
    · exact absurd h hsl
    · exact absurd h hig
    · rw [hp] at h
      simp at h
  | some info =>
    rw [Bool.not_eq_true] at hnb hsl hig
    have hmain : lintingHelper inp reported =
        if inp.stdout == "" then ⟨[(inp.docUri, [])], reported, true⟩
        else lintMain inp reported := by
      unfold lintingHelper
      simp [hnb, hscope, hsl, hig, hp]
    by_cases hout : (inp.stdout == "") = true
    · refine ⟨[], ?_⟩
      rw [hmain, hout]
      simp
    · rw [Bool.not_eq_true] at hout
      rw [hmain, hout]
      simp only [Bool.false_eq_true, if_false]
      have hfw : ("file" == "workspace") = false := by decide
      unfold lintMain
      simp only [hscope, hfw, Bool.false_eq_true, if_false, beq_self_eq_true, if_true]
      by_cases hemp : isEmptyDiagnostics inp.docPath (parseOutputRegex inp.stdout inp.sev) = true
      · refine ⟨[], ?_⟩
        simp only [hemp, if_true]
        exact List.mem_append_right _ (List.mem_singleton.mpr rfl)
      · have hany : (parseOutputRegex inp.stdout inp.sev).any
            (fun kv => is_same_path inp.docPath kv.1 && !kv.2.isEmpty) = true := by
          unfold isEmptyDiagnostics at hemp
          simpa using hemp
        obtain ⟨kv, hkv, hcond⟩ := List.any_eq_true.mp hany
        rw [Bool.and_eq_true] at hcond
        have hsp : is_same_path kv.1 inp.docPath = true := by
          rw [is_same_path_symm]
          exact hcond.1
        refine ⟨kv.2, ?_⟩
        rw [Bool.not_eq_true] at hemp
        simp only [hemp, Bool.false_eq_true, if_false, List.append_nil]
        exact mem_foldr_routePub_file hkv hscope hsp

/-- Witness for the C6 amended theorem: a file-scope run with a
successful probe and empty tool output publishes the empty clear to the
document URI. -/
theorem c6_file_scope_always_publishes_witness :
    ∃ ds, ("file:///ws/b.py", ds) ∈
      (lintingHelper
        ⟨"file", "/ws/b.py", "file:///ws/b.py", false, false,
          [("error", "Error")], some ⟨1, 8, false⟩, ""⟩ []).publishes := by
  exact c6_file_scope_always_publishes
    ⟨"file", "/ws/b.py", "file:///ws/b.py", false, false,
      [("error", "Error")], some ⟨1, 8, false⟩, ""⟩ [] rfl
    (Or.inr (Or.inr (Or.inr rfl)))

/-- C9 amended: the notebook-cell skip applies in every reporting scope,
but the standard-library and ignore-pattern skips are gated on
`reportingScope == "file"`; in all three skip cases no tool invocation
happens and a single empty diagnostics array is published for the
document. -/
theorem c9_skip_conditions_amended (inp : LintInput) (reported : List String)
    (h : startsWithL inp.docUri "vscode-notebook-cell" = true
      ∨ (inp.scope = "file" ∧ (inp.isStdlib = true ∨ inp.ignoreMatch = true))) :
    (lintingHelper inp reported).publishes = [(inp.docUri, [])]
    ∧ (lintingHelper inp reported).toolInvoked = false := by
  rcases h with hnb | ⟨hsc, hcase⟩
  · simp [lintingHelper, hnb]
  · by_cases hnb : startsWithL inp.docUri "vscode-notebook-cell" = true
    · simp [lintingHelper, hnb]
    · rcases hcase with hsl | hig
      · simp [lintingHelper, hnb, hsc, hsl]
      · by_cases hsl : inp.isStdlib = true
        · simp [lintingHelper, hnb, hsc, hsl]
        · simp [lintingHelper, hnb, hsc, hsl, hig]

/-- Witness for the C9 amended theorem: a file-scope run on a
standard-library document publishes one empty array and never invokes
the tool. -/
theorem c9_skip_conditions_amended_witness :
    (lintingHelper
        ⟨"file", "/usr/lib/python3.11/os.py", "file:///usr/lib/python3.11/os.py",
          true, false, [("error", "Error")], some ⟨1, 8, false⟩, "x"⟩ []).publishes
      = [("file:///usr/lib/python3.11/os.py", [])]
    ∧ (lintingHelper
        ⟨"file", "/usr/lib/python3.11/os.py", "file:///usr/lib/python3.11/os.py",
          true, false, [("error", "Error")], some ⟨1, 8, false⟩, "x"⟩ []).toolInvoked
      = false := by
  exact c9_skip_conditions_amended
    ⟨"file", "/usr/lib/python3.11/os.py", "file:///usr/lib/python3.11/os.py",
      true, false, [("error", "Error")], some ⟨1, 8, false⟩, "x"⟩ []
    (Or.inr ⟨rfl, Or.inl rfl⟩)

/-- C7 counterexample: run 1 (workspace scope) reports `/ws/a.py` into
the reported-file set; run 2 produces EMPTY tool stdout, takes the
`else` branch that merely clears the triggering document, and never
publishes the claimed explicit empty array for the absent `/ws/a.py`. -/
theorem c7_empty_output_counterexample :
    (lintingHelper
        ⟨"workspace", "/ws/b.py", "file:///ws/b.py", false, false,
          [("error", "Error")], some ⟨1, 8, false⟩,
          "/ws/a.py:1:1: error: boom  [misc]\n"⟩ []).reported = ["/ws/a.py"]
    ∧ (lintingHelper
        ⟨"workspace", "/ws/b.py", "file:///ws/b.py", false, false,
          [("error", "Error")], some ⟨1, 8, false⟩, ""⟩
        ["/ws/a.py"]).publishes = [("file:///ws/b.py", [])]
    ∧ ¬ ((fileUri "/ws/a.py", ([] : List Diagnostic)) ∈
        (lintingHelper
          ⟨"workspace", "/ws/b.py", "file:///ws/b.py", false, false,
            [("error", "Error")], some ⟨1, 8, false⟩, ""⟩
          ["/ws/a.py"]).publishes) := by
  refine ⟨?_, ?_, ?_⟩ <;> decide

/-- C7 amended: the reported-file set only ever grows (first conjunct,
with no side conditions); and for every workspace-scope run that reaches
the parse — not a notebook cell, probe succeeded, and tool stdout
NON-EMPTY (the amendment: an empty stdout run clears only the
triggering document) — every parsed file is recorded in the set, and
every recorded file absent from the parse keys receives an explicit
empty publish to its file URI. -/
theorem c7_workspace_reported_and_clear (inp : LintInput) (reported : List String) :
    (∀ fp, fp ∈ reported → fp ∈ (lintingHelper inp reported).reported)
    ∧ (inp.scope = "workspace" →
        startsWithL inp.docUri "vscode-notebook-cell" = false →
        ∀ info, inp.probe = some info →
          (inp.stdout == "") = false →
          (∀ kv, kv ∈ parseOutputRegex inp.stdout inp.sev →
            kv.1 ∈ (lintingHelper inp reported).reported)
          ∧ (∀ fp, fp ∈ (lintingHelper inp reported).reported →
              (parseOutputRegex inp.stdout inp.sev).any (fun kv => kv.1 == fp) = false →
              (fileUri fp, []) ∈ (lintingHelper inp reported).publishes)) := by
  constructor
  · intro fp hfp
    unfold lintingHelper
    by_cases hnb : startsWithL inp.docUri "vscode-notebook-cell" = true
    · simp [hnb]
      exact hfp
    by_cases hsl : (inp.scope == "file" && inp.isStdlib) = true
    · simp [hnb, hsl]
      exact hfp
    by_cases hig : (inp.scope == "file" && inp.ignoreMatch) = true
    · simp [hnb, hsl, hig]
      exact hfp
    rw [Bool.not_eq_true] at hnb hsl hig
    cases hp : inp.probe with
    | none =>
      simp [hnb, hsl, hig, hp]
      exact hfp
    | some info =>
      by_cases hout : (inp.stdout == "") = true
      · simp [hnb, hsl, hig, hp, hout]
        exact hfp
      · rw [Bool.not_eq_true] at hout
        simp only [hnb, hsl, hig, hp, hout, Bool.false_eq_true, if_false]
        unfold lintMain
        by_cases hws : (inp.scope == "workspace") = true
        · simp only [hws, if_true]
          exact mem_foldl_addReported hfp
        · rw [Bool.not_eq_true] at hws
          simp only [hws, Bool.false_eq_true, if_false]
          exact hfp
  · intro hsc hnb info hp hout
    have hwf : ("workspace" == "file") = false := by decide
    have hww : ("workspace" == "workspace") = true := by decide
    have hsl : (inp.scope == "file" && inp.isStdlib) = false := by
      rw [hsc, hwf, Bool.false_and]
    have hig : (inp.scope == "file" && inp.ignoreMatch) = false := by
      rw [hsc, hwf, Bool.false_and]
    have hmain : lintingHelper inp reported = lintMain inp reported := by
      unfold lintingHelper
      simp [hnb, hsl, hig, hp, hout]
    rw [hmain]
    unfold lintMain
    simp only [hsc, hwf, hww, Bool.false_eq_true, if_false, if_true]
    constructor
    · intro kv hkv
      exact mem_foldl_addReported_key hkv reported
    · intro fp hfp hany
      refine List.mem_append_right _ (List.mem_map.mpr ⟨fp, ?_, rfl⟩)
      refine List.mem_filter.mpr ⟨hfp, ?_⟩
      rw [hany]
      rfl

/-- Witness for the C7 amended theorem at a concrete workspace run:
prior set `{/ws/a.py}`, tool output reporting only `/ws/c.py` — the old
path stays in the set, the new path joins it, and the old path gets an
explicit empty publish. -/
theorem c7_workspace_reported_and_clear_witness :
    "/ws/a.py" ∈ (lintingHelper
        ⟨"workspace", "/ws/b.py", "file:///ws/b.py", false, false,
          [("error", "Error")], some ⟨1, 8, false⟩,
          "/ws/c.py:1:1: error: boom  [misc]"⟩ ["/ws/a.py"]).reported
    ∧ "/ws/c.py" ∈ (lintingHelper
        ⟨"workspace", "/ws/b.py", "file:///ws/b.py", false, false,
          [("error", "Error")], some ⟨1, 8, false⟩,
          "/ws/c.py:1:1: error: boom  [misc]"⟩ ["/ws/a.py"]).reported
    ∧ (fileUri "/ws/a.py", ([] : List Diagnostic)) ∈ (lintingHelper
        ⟨"workspace", "/ws/b.py", "file:///ws/b.py", false, false,
          [("error", "Error")], some ⟨1, 8, false⟩,
          "/ws/c.py:1:1: error: boom  [misc]"⟩ ["/ws/a.py"]).publishes := by
  have h := c7_workspace_reported_and_clear
    ⟨"workspace", "/ws/b.py", "file:///ws/b.py", false, false,
      [("error", "Error")], some ⟨1, 8, false⟩,
      "/ws/c.py:1:1: error: boom  [misc]"⟩ ["/ws/a.py"]
  have h2 := h.2 rfl (by decide) ⟨1, 8, false⟩ rfl (by decide)
  refine ⟨h.1 "/ws/a.py" (by decide), ?_, h2.2 "/ws/a.py" (h.1 "/ws/a.py" (by decide)) (by decide)⟩
  exact h2.1
    ("/ws/c.py",
      [mkDiag [("error", "Error")]
        (toGroupDict ⟨'/', 'w', ['s', '/', 'c', '.', 'p', 'y'], ['1'],
          ⟨some ['1'], none, [':', '1'],
            ['e', 'r', 'r', 'o', 'r', ':', ' ', 'b', 'o', 'o', 'm', ' ', ' ',
              '[', 'm', 'i', 's', 'c', ']']⟩,
          ['e', 'r', 'r', 'o', 'r'], ['b', 'o', 'o', 'm'], some ['m', 'i', 's', 'c']⟩)
        "boom" (some "https://mypy.readthedocs.io/en/stable/misc") none])
    (by decide)

/-- Splitting the loop at a list boundary: the first block runs with the
head of the second block as its final lookahead. -/
lemma runAux_append (sev : List (String × String)) :
    ∀ (xs ys : List String) (la : Option String) (st : NoteState),
      runAux sev (xs ++ ys) la st =
        ((runAux sev xs (headOr ys la) st).1
            ++ (runAux sev ys la (runAux sev xs (headOr ys la) st).2).1,
          (runAux sev ys la (runAux sev xs (headOr ys la) st).2).2) := by
  intro xs
  induction xs with
  | nil => intro ys la st; simp [runAux_nil, headOr]
  | cons x xs ih =>
    intro ys la st
    have hh : headOr (xs ++ ys) la = headOr xs (headOr ys la) := by
      cases xs <;> rfl
    rw [List.cons_append, runAux_cons, hh, ih, runAux_cons]
    simp [List.append_assoc]

/-- Buffer invariant for a run over unquoted lines: afterwards the note
buffer is empty, unless the last line was a note buffered because the
final lookahead raw-parses as a note at its exact location. -/
lemma buffer_state (sev : List (String × String)) (xs : List String) :
    ∀ (la : Option String) (st : NoteState),
      (∀ l ∈ xs, stripQuotes l = l) →
      (st.notes = [] ∨ ∃ x, xs.head? = some x ∧ isNoteLine x) →
      ((runAux sev xs la st).2.notes = [] ∨
        ∃ l d, xs.getLast? = some l ∧ parseLine l = some d ∧ d.type = "note" ∧
          lookNoteAt la d.location = true) := by
  induction xs with
  | nil =>
    intro la st _ hst
    rcases hst with h | ⟨x, hx, _⟩
    · exact Or.inl (by simpa [runAux_nil] using h)
    · simp at hx
  | cons x rest ih =>
    intro la st hunq hst
    rw [runAux_cons]
    have hx : stripQuotes x = x := hunq x (List.mem_cons_self x rest)
    have hunqr : ∀ l ∈ rest, stripQuotes l = l :=
      fun l hl => hunq l (List.mem_cons_of_mem x hl)
    cases hpl : parseLine x with
    | none =>
      have hstep : stepNote sev x (headOr rest la) st = ([], st) := by
        unfold stepNote
        rw [hx, hpl]
      rw [hstep]
      have hstn : st.notes = [] := by
        rcases hst with h | ⟨x', hx', d, hpd, _⟩
        · exact h
        · have hxx : x = x' := by simpa using hx'
          rw [← hxx, hpl] at hpd
          exact absurd hpd (by simp)
      cases rest with
      | nil =>
        left
        simpa [runAux_nil] using hstn
      | cons r rest' =>
        rcases ih la st hunqr (Or.inl hstn) with h | ⟨l, d, hl, hpd, hty, hla⟩
        · exact Or.inl h
        · exact Or.inr ⟨l, d, by rw [List.getLast?_cons_cons]; exact hl, hpd, hty, hla⟩
    | some d =>
      by_cases hty : (d.type == "note") = true
      · by_cases hla : lookNoteAt (headOr rest la) d.location = true
        · cases rest with
          | nil =>
            exact Or.inr ⟨x, d, rfl, hpl, by simpa using hty, hla⟩
          | cons r rest' =>
            have hr : isNoteLine r := by
              unfold lookNoteAt at hla
              cases hpr : parseLine r with
              | none => simp [headOr, hpr] at hla
              | some dr =>
                simp [headOr, hpr] at hla
                exact ⟨dr, hpr, hla.1⟩
            rcases ih la (stepNote sev x (headOr (r :: rest') la) st).2 hunqr
                (Or.inr ⟨r, rfl, hr⟩) with h | ⟨l, dd, hl, hpd, htyd, hlad⟩
            · exact Or.inl h
            · exact Or.inr ⟨l, dd, by rw [List.getLast?_cons_cons]; exact hl, hpd, htyd, hlad⟩
        · have hstep : (stepNote sev x (headOr rest la) st).2 = ⟨[], none⟩ := by
            unfold stepNote
            rw [hx, hpl]
            simp [hty, hla]
          rw [hstep]
          cases rest with
          | nil =>
            left
            simp [runAux_nil]
          | cons r rest' =>
            rcases ih la ⟨[], none⟩ hunqr (Or.inl rfl) with h | ⟨l, dd, hl, hpd, htyd, hlad⟩
            · exact Or.inl h
            · exact Or.inr ⟨l, dd, by rw [List.getLast?_cons_cons]; exact hl, hpd, htyd, hlad⟩
      · have hstep : (stepNote sev x (headOr rest la) st).2 = ⟨[], none⟩ := by
          unfold stepNote
          rw [hx, hpl]
          simp [hty]
        rw [hstep]
        cases rest with
        | nil =>
          left
          simp [runAux_nil]
        | cons r rest' =>
          rcases ih la ⟨[], none⟩ hunqr (Or.inl rfl) with h | ⟨l, dd, hl, hpd, htyd, hlad⟩
          · exact Or.inl h
          · exact Or.inr ⟨l, dd, by rw [List.getLast?_cons_cons]; exact hl, hpd, htyd, hlad⟩

/-- Running the loop over a nonempty block of unquoted note lines all at
location `L`, with a final lookahead that does not continue the group,
buffers every message and emits exactly ONE diagnostic whose message is
the newline-join of the incoming buffer and the group's messages; the
state comes out reset. -/
lemma grp_run (sev : List (String × String)) (L : String) :
    ∀ (gs : List String) (ds : List GroupDict) (acc : List String) (sh : Option String)
      (laEnd : Option String),
      (∀ l ∈ gs, stripQuotes l = l) →
      gs.map parseLine = ds.map some →
      (∀ d ∈ ds, d.type = "note" ∧ d.location = L) →
      lookNoteAt laEnd L = false →
      gs ≠ [] →
      ∃ fp dg,
        runAux sev gs laEnd ⟨acc, sh⟩ = ([(fp, dg)], ⟨[], none⟩)
        ∧ dg.message = String.intercalate "\n" (acc ++ ds.map (fun d => d.message)) := by
  intro gs
  induction gs with
  | nil => intro ds acc sh laEnd _ _ _ _ hne; exact absurd rfl hne
  | cons g rest ih =>
    intro ds acc sh laEnd hunq hmap hds hla _
    cases ds with
    | nil => simp at hmap
    | cons d ds' =>
      have hmc : parseLine g :: rest.map parseLine = some d :: ds'.map some := by
        simpa using hmap
      injection hmc with hm1 hm2
      have hg : stripQuotes g = g := hunq g (List.mem_cons_self g rest)
      have hd := hds d (List.mem_cons_self d ds')
      have hbeq : (d.type == "note") = true := beq_iff_eq.mpr hd.1
      cases rest with
      | nil =>
        cases ds' with
        | cons d2 ds2 => simp at hm2
        | nil =>
          have hlaf : lookNoteAt laEnd d.location = false := by
            rw [hd.2]; exact hla
          refine ⟨absolutePath d.filepath,
            mkDiag sev d (String.intercalate "\n" (acc ++ [d.message]))
              (if (sh.isNone && startsWithL d.message seeHrefMarker) = true then
                some (d.message.drop seePrefLen) else sh)
              (if (sh.isNone && startsWithL d.message seeHrefMarker) = true then
                some (d.message.drop seePrefLen) else sh), ?_, rfl⟩
          rw [runAux_cons, runAux_nil]
          unfold stepNote
          rw [hg, hm1]
          simp only [headOr, hbeq, if_true, hlaf, Bool.false_eq_true, if_false,
            List.append_nil]
      | cons g2 rest2 =>
        cases ds' with
        | nil => simp at hm2
        | cons d2 ds2 =>
          have hm2c : parseLine g2 :: rest2.map parseLine = some d2 :: ds2.map some := by
            simpa using hm2
          injection hm2c with hm21 _
          have hd2 := hds d2 (by simp)
          have hunqr : ∀ l ∈ g2 :: rest2, stripQuotes l = l :=
            fun l hl => hunq l (List.mem_cons_of_mem g hl)
          have hds' : ∀ dd ∈ d2 :: ds2, dd.type = "note" ∧ dd.location = L :=
            fun dd hdd => hds dd (List.mem_cons_of_mem d hdd)
          have hlook : lookNoteAt (headOr (g2 :: rest2) laEnd) d.location = true := by
            simp [headOr, lookNoteAt, hm21, hd2.1, hd2.2, hd.2]
          have hstep : stepNote sev g (headOr (g2 :: rest2) laEnd) ⟨acc, sh⟩ =
              ([], ⟨acc ++ [d.message],
                if (sh.isNone && startsWithL d.message seeHrefMarker) = true then
                  some (d.message.drop seePrefLen) else sh⟩) := by
            unfold stepNote
            rw [hg, hm1]
            simp only [hbeq, if_true, hlook]
          obtain ⟨fp, dg, hrun, hmsg⟩ :=
            ih (d2 :: ds2) (acc ++ [d.message])
              (if (sh.isNone && startsWithL d.message seeHrefMarker) = true then
                some (d.message.drop seePrefLen) else sh)
              laEnd hunqr hm2 hds' hla (by simp)
          refine ⟨fp, dg, ?_, ?_⟩
          · rw [runAux_cons]
            simp only [hstep]
            simp only [hrun]
            simp
          · rw [hmsg]
            simp

/-- C1 amended: take any tool output whose lines split as
`pre ++ grp ++ post` where the lines of `pre ++ grp` are not
quote-wrapped, `grp` is a run of `k ≥ 2` lines that parse as notes at
the identical location string `L`, the run is maximal (`pre` does not
end in a note at `L`, and the first line of `post` does not parse as a
note at `L`), and — the amendment forced by the quote counterexample —
the note buffer entering the group is empty because the `pre ++ grp`
lines are unquoted.  Then `_parse_output_using_regex` emits exactly one
diagnostic for the group, sandwiched between the emissions of `pre` and
of `post`, and its message is the newline-join of the `k` note messages
in original order. -/
theorem c1_note_aggregation_amended (sev : List (String × String))
    (pre grp post : List String) (ds : List GroupDict) (L : String)
    (hunq : ∀ l ∈ pre ++ grp, stripQuotes l = l)
    (hk : 2 ≤ grp.length)
    (hmap : grp.map parseLine = ds.map some)
    (hds : ∀ d ∈ ds, d.type = "note" ∧ d.location = L)
    (hpre : ∀ l d, pre.getLast? = some l → parseLine l = some d → d.type = "note" →
      d.location ≠ L)
    (hpost : lookNoteAt post.head? L = false) :
    ∃ fp dg,
      parseEmitList sev (pre ++ grp ++ post) =
        (runAux sev pre grp.head? ⟨[], none⟩).1 ++ [(fp, dg)]
          ++ (runAux sev post none ⟨[], none⟩).1
      ∧ dg.message = String.intercalate "\n" (ds.map (fun d => d.message)) := by
  cases grp with
  | nil => simp at hk
  | cons g0 grest =>
  cases ds with
  | nil => simp at hmap
  | cons d0 ds0 =>
  have hmc : parseLine g0 :: grest.map parseLine = some d0 :: ds0.map some := by
    simpa using hmap
  injection hmc with hm0 _
  have hd0 := hds d0 (List.mem_cons_self d0 ds0)
  have hunqp : ∀ l ∈ pre, stripQuotes l = l :=
    fun l hl => hunq l (List.mem_append_left _ hl)
  have hunqg : ∀ l ∈ g0 :: grest, stripQuotes l = l :=
    fun l hl => hunq l (List.mem_append_right _ hl)
  have hn1 : (runAux sev pre (some g0) ⟨[], none⟩).2.notes = [] := by
    rcases buffer_state sev pre (some g0) ⟨[], none⟩ hunqp (Or.inl rfl) with
      h | ⟨l, d, hl, hpd, hty, hla2⟩
    · exact h
    · exfalso
      unfold lookNoteAt at hla2
      simp [hm0] at hla2
      exact hpre l d hl hpd hty (by rw [← hla2.2]; exact hd0.2)
  set r := runAux sev pre (some g0) ⟨[], none⟩ with hrdef
  have hst1eta : r.2 = ⟨[], r.2.seeHref⟩ := by
    rw [← hn1]
  have hpo : headOr post none = post.head? := by cases post <;> rfl
  obtain ⟨fp, dg, hrun, hmsg⟩ :=
    grp_run sev L (g0 :: grest) (d0 :: ds0) [] r.2.seeHref (headOr post none)
      hunqg hmap hds (by rw [hpo]; exact hpost) (by simp)
  refine ⟨fp, dg, ?_, ?_⟩
  · have e1 : headOr ((g0 :: grest) ++ post) none = some g0 := rfl
    have hsplit1 := runAux_append sev pre ((g0 :: grest) ++ post) none ⟨[], none⟩
    have hsplit2 := runAux_append sev (g0 :: grest) post none r.2
    unfold parseEmitList
    rw [hpo] at hrun
    rw [List.append_assoc, hsplit1, e1]
    rw [← hrdef, hsplit2, hst1eta, hpo, hrun]
    simp [List.append_assoc]
  · rw [hmsg]
    simp

/-- Witness for the C1 amended theorem at a concrete output: two notes
at `/a.py:1` followed by an error line collapse into one diagnostic with
message `n1\nn2`. -/
theorem c1_note_aggregation_amended_witness :
    ∃ fp dg,
      parseEmitList [("note", "Information")]
          ([] ++ ["/a.py:1: note: n1", "/a.py:1: note: n2"] ++ ["/b.py:2: error: e"]) =
        (runAux [("note", "Information")] []
            (["/a.py:1: note: n1", "/a.py:1: note: n2"].head?) ⟨[], none⟩).1
          ++ [(fp, dg)]
          ++ (runAux [("note", "Information")] ["/b.py:2: error: e"] none ⟨[], none⟩).1
      ∧ dg.message = String.intercalate "\n"
          (([⟨"/a.py:1", "/a.py", "1", none, none, none, "note", "n1", none⟩,
             ⟨"/a.py:1", "/a.py", "1", none, none, none, "note", "n2", none⟩] :
            List GroupDict).map (fun d => d.message)) := by
  exact c1_note_aggregation_amended [("note", "Information")]
    [] ["/a.py:1: note: n1", "/a.py:1: note: n2"] ["/b.py:2: error: e"]
    [⟨"/a.py:1", "/a.py", "1", none, none, none, "note", "n1", none⟩,
     ⟨"/a.py:1", "/a.py", "1", none, none, none, "note", "n2", none⟩] "/a.py:1"
    (by decide) (by decide) (by decide) (by decide)
    (by intro l d h; simp at h) (by decide)

/-- C1 counterexample: the claim as stated quantifies over EVERY tool
output.  In this output the first line is doubly quote-wrapped so its
unquoted parse is a note at location `'x:1`, and its raw lookahead (the
second, singly quoted line) also raw-parses as a note at `'x:1`, so the
message `a` is buffered; the second line's unquoted form `x:1: note: m`
then fails the regex (one-character filepath), so the buffer survives.
The following two lines are the group: consecutive notes at the
identical location `/a.py:1` with messages `g1`, `g2` (k = 2).  The
parser emits exactly one diagnostic, but its message is `a\ng1\ng2` —
not the claimed newline-join `g1\ng2` of the group's messages. -/
theorem c1_quoted_note_counterexample :
    (parseOutputRegex
        (sqs ++ sqs ++ "x:1: note: a" ++ sqs ++ "\n" ++ sqs ++ "x:1: note: m" ++ sqs
          ++ "\n/a.py:1: note: g1\n/a.py:1: note: g2") [("note", "Information")]).map
        (fun kv => (kv.1, kv.2.map (fun d => d.message)))
      = [("/a.py", ["a\ng1\ng2"])]
    ∧ (parseLine "/a.py:1: note: g1").map (fun d => (d.type, d.location, d.message))
      = some ("note", "/a.py:1", "g1")
    ∧ (parseLine "/a.py:1: note: g2").map (fun d => (d.type, d.location, d.message))
      = some ("note", "/a.py:1", "g2")
    ∧ "a\ng1\ng2" ≠ "g1\ng2" := by
  refine ⟨?_, ?_, ?_, ?_⟩ <;> decide

end VsMypy
